import Mathlib

/-!
A verification development for the terminal research agent: the tool-invocation
protocol and the conversation orchestration loop.  The definitions below are a
shallow embedding of the TypeScript sources:

  * `src/tools/calculator.ts` — the calculator tool (`parseCall`, `execute`);
  * `src/tools/registry.ts` — `ToolRegistry` (`register`, `get`, `getAll`,
    `parseToolCall`, `executeToolCall`, `generateSystemPrompt`);
  * `src/index.ts` — the orchestrator (`respondWithAssistant`, `startChat`).

Modelling conventions:

  * JavaScript numbers are modelled by `JsNum`: `NaN`, the two infinities, and
    finite values as exact rationals.  Finite arithmetic is exact (IEEE double
    rounding, overflow to infinity and the negative zero are not modelled; no
    property below depends on them — all concrete inputs are small integers).
  * `Number(string)` is modelled by `jsNumber` for the strings that actually
    reach it here: nonempty, whitespace-free tokens produced by splitting a
    trimmed string on runs of whitespace.  It covers signed decimal literals
    with optional fraction and exponent, `Infinity`, and the `0x`/`0o`/`0b`
    radix forms; everything else is `NaN`.
  * String operations (`trim`, `toUpperCase`, `toLowerCase`, `split(/\s+/)`)
    are modelled on the ASCII fragment, which covers every literal the
    protocol is keyed to.
  * The model transport is external; a turn is driven by a *script*: the list
    of outcomes of the successive `ai.chat` calls, each either a reply text or
    a thrown transport error.  An exhausted script is treated as a transport
    failure (unreachable in the properties below, which always supply enough
    replies).
  * The TypeScript `args: any` of `Tool`/`ParsedToolCall` is instantiated at
    `CalculatorArgs`, the only argument type a tool of this repository uses,
    and `ToolResult.result?: any` at `JsNum`, the only result type produced.
-/

/-- Message roles, from `ChatMessage` in `src/core/ai.ts`. -/
inductive Role where
  | system
  | user
  | assistant
deriving DecidableEq, Repr

/-- A transcript entry, from `ChatMessage` in `src/core/ai.ts`. -/
structure ChatMessage where
  role : Role
  content : String
deriving DecidableEq, Repr

/-- A JavaScript number: `NaN`, an infinity, or a finite value (modelled as an
exact rational; the negative zero is collapsed onto `0`). -/
inductive JsNum where
  | nan
  | posInf
  | negInf
  | finite (q : ℚ)
deriving DecidableEq, Repr

/-- The `Number.isNaN` test used by the calculator recognizer. -/
def JsNum.isNaN : JsNum → Bool
  | .nan => true
  | _ => false

/-- The strict-equality test `x === 0` used by the division guard. -/
def JsNum.eqZero : JsNum → Bool
  | .finite q => q == 0
  | _ => false

/-- Whitespace for the purposes of `trim` and `split(/\s+/)` (the ASCII
whitespace characters: space, tab, newline, carriage return, vertical tab,
form feed). -/
def jsIsWs (c : Char) : Bool :=
  c == ' ' || c == '\t' || c == '\n' || c == '\r' || c == '\x0b' || c == '\x0c'

/-- JavaScript `String.prototype.trim`: drop leading and trailing whitespace. -/
def jsTrim (s : String) : String :=
  String.mk (((s.toList.dropWhile jsIsWs).reverse.dropWhile jsIsWs).reverse)

/-- ASCII uppercase of one character (JavaScript `toUpperCase` restricted to
the ASCII fragment). -/
def asciiUpper (c : Char) : Char :=
  if 'a' ≤ c && c ≤ 'z' then Char.ofNat (c.toNat - 32) else c

/-- ASCII lowercase of one character (JavaScript `toLowerCase` restricted to
the ASCII fragment). -/
def asciiLower (c : Char) : Char :=
  if 'A' ≤ c && c ≤ 'Z' then Char.ofNat (c.toNat + 32) else c

/-- JavaScript `toUpperCase` on the ASCII fragment. -/
def jsToUpper (s : String) : String := String.mk (s.toList.map asciiUpper)

/-- JavaScript `toLowerCase` on the ASCII fragment. -/
def jsToLower (s : String) : String := String.mk (s.toList.map asciiLower)

/-- JavaScript `String.prototype.startsWith`, as a character-list prefix
test. -/
def jsStartsWith (s pre : String) : Bool := pre.toList.isPrefixOf s.toList

/-- Maximal non-whitespace chunks of a character list: the list-level core of
`split(/\s+/)`. -/
def wsChunks : List Char → List (List Char)
  | [] => []
  | c :: cs =>
    if jsIsWs c then wsChunks cs
    else
      match wsChunks cs with
      | [] => [[c]]
      | chunk :: rest =>
        match cs with
        | [] => [[c]]
        | d :: _ => if jsIsWs d then [c] :: chunk :: rest else (c :: chunk) :: rest

/-- JavaScript `split(/\s+/)` for strings without leading whitespace (the only
strings it is applied to here: the recognizer splits the trimmed message). -/
def splitWs (s : String) : List String := (wsChunks s.toList).map String.mk

/-- Decimal digit test. -/
def isDigit (c : Char) : Bool := '0' ≤ c && c ≤ '9'

/-- Value of a list of decimal digits (most significant first). -/
def natOfDigits (cs : List Char) : ℕ :=
  cs.foldl (fun n c => 10 * n + (c.toNat - '0'.toNat)) 0

/-- Exact rational addition, implemented on numerators and denominators so
that it evaluates by kernel reduction (the library `Rat.add` is declared
irreducible); `ratAdd_eq` below proves it is `+`. -/
def ratAdd (a b : ℚ) : ℚ := mkRat (a.num * b.den + b.num * a.den) (a.den * b.den)

/-- Exact rational subtraction; `ratSub_eq` below proves it is `-`. -/
def ratSub (a b : ℚ) : ℚ := mkRat (a.num * b.den - b.num * a.den) (a.den * b.den)

/-- Exact rational multiplication; `ratMul_eq` below proves it is `*`. -/
def ratMul (a b : ℚ) : ℚ := mkRat (a.num * b.num) (a.den * b.den)

/-- Exact rational division; `ratDiv_eq` below proves it is `/`. -/
def ratDiv (a b : ℚ) : ℚ := Rat.divInt (a.num * b.den) (a.den * b.num)

theorem ratAdd_eq (a b : ℚ) : ratAdd a b = a + b := (Rat.add_def' a b).symm

theorem ratSub_eq (a b : ℚ) : ratSub a b = a - b := (Rat.sub_def' a b).symm

theorem ratMul_eq (a b : ℚ) : ratMul a b = a * b := by
  rw [ratMul, Rat.mul_def, Rat.normalize_eq_mkRat]

theorem ratDiv_eq (a b : ℚ) : ratDiv a b = a / b := (Rat.div_def' a b).symm

/-- Mantissa of a JavaScript decimal literal: `digits`, `digits.`,
`digits.digits` or `.digits`, valued as integer part plus fractional digits
over the matching power of ten. -/
def parseMantissa (cs : List Char) : Option ℚ :=
  let ip := cs.takeWhile isDigit
  let rest := cs.dropWhile isDigit
  match rest with
  | [] => if ip.isEmpty then none else some (natOfDigits ip : ℚ)
  | '.' :: rest2 =>
    let fp := rest2.takeWhile isDigit
    let rest3 := rest2.dropWhile isDigit
    if rest3.isEmpty && !(ip.isEmpty && fp.isEmpty) then
      some (mkRat (natOfDigits ip * 10 ^ fp.length + natOfDigits fp) (10 ^ fp.length))
    else none
  | _ => none

/-- Exponent part of a JavaScript decimal literal (after the `e`/`E`):
an optional sign and a nonempty digit run. -/
def parseExponent (cs : List Char) : Option ℤ :=
  match cs with
  | '+' :: ds => if ds.isEmpty || ds.any (fun c => !isDigit c) then none
                 else some (natOfDigits ds : ℤ)
  | '-' :: ds => if ds.isEmpty || ds.any (fun c => !isDigit c) then none
                 else some (-(natOfDigits ds : ℤ))
  | ds => if ds.isEmpty || ds.any (fun c => !isDigit c) then none
          else some (natOfDigits ds : ℤ)

/-- The mantissa scaled by a signed power of ten (implemented on the
numerator and denominator so that it evaluates by kernel reduction). -/
def applyExponent (q : ℚ) (k : ℤ) : ℚ :=
  match k with
  | .ofNat n => mkRat (q.num * 10 ^ n) q.den
  | .negSucc n => mkRat q.num (q.den * 10 ^ (n + 1))

/-- An unsigned JavaScript decimal literal, with optional exponent. -/
def parseDecimal (cs : List Char) : Option ℚ :=
  let m := cs.takeWhile (fun c => c != 'e' && c != 'E')
  let rest := cs.dropWhile (fun c => c != 'e' && c != 'E')
  match rest with
  | [] => parseMantissa m
  | _ :: ex =>
    match parseMantissa m, parseExponent ex with
    | some q, some k => some (applyExponent q k)
    | _, _ => none

/-- Digit value in a given radix, if the character is a digit of that radix. -/
def radixDigit (radix : ℕ) (c : Char) : Option ℕ :=
  let v : ℕ :=
    if '0' ≤ c && c ≤ '9' then c.toNat - '0'.toNat
    else if 'a' ≤ c && c ≤ 'f' then c.toNat - 'a'.toNat + 10
    else if 'A' ≤ c && c ≤ 'F' then c.toNat - 'A'.toNat + 10
    else 99
  if v < radix then some v else none

/-- Value of a nonempty digit run in a given radix. -/
def parseRadix (radix : ℕ) (cs : List Char) : Option ℕ :=
  match cs with
  | [] => none
  | _ =>
    cs.foldl (fun acc c =>
      match acc, radixDigit radix c with
      | some n, some v => some (radix * n + v)
      | _, _ => none) (some 0)

/-- JavaScript `Number(string)` for nonempty whitespace-free tokens: radix
prefixes (unsigned), `Infinity` with optional sign, and signed decimal
literals; anything else is `NaN`. -/
def jsNumber (s : String) : JsNum :=
  match s.toList with
  | [] => JsNum.finite 0
  | '0' :: 'x' :: ds => match parseRadix 16 ds with
    | some n => .finite n | none => .nan
  | '0' :: 'X' :: ds => match parseRadix 16 ds with
    | some n => .finite n | none => .nan
  | '0' :: 'o' :: ds => match parseRadix 8 ds with
    | some n => .finite n | none => .nan
  | '0' :: 'O' :: ds => match parseRadix 8 ds with
    | some n => .finite n | none => .nan
  | '0' :: 'b' :: ds => match parseRadix 2 ds with
    | some n => .finite n | none => .nan
  | '0' :: 'B' :: ds => match parseRadix 2 ds with
    | some n => .finite n | none => .nan
  | '+' :: cs =>
    if cs = "Infinity".toList then .posInf
    else match parseDecimal cs with
      | some q => .finite q | none => .nan
  | '-' :: cs =>
    if cs = "Infinity".toList then .negInf
    else match parseDecimal cs with
      | some q => .finite (-q) | none => .nan
  | cs =>
    if cs = "Infinity".toList then .posInf
    else match parseDecimal cs with
      | some q => .finite q | none => .nan

/-- JavaScript `+` on numbers (finite arithmetic exact; IEEE infinity and
`NaN` propagation rules). -/
def jsAdd : JsNum → JsNum → JsNum
  | .nan, _ => .nan
  | _, .nan => .nan
  | .posInf, .negInf => .nan
  | .negInf, .posInf => .nan
  | .posInf, _ => .posInf
  | _, .posInf => .posInf
  | .negInf, _ => .negInf
  | _, .negInf => .negInf
  | .finite a, .finite b => .finite (ratAdd a b)

/-- JavaScript `-` on numbers. -/
def jsSub : JsNum → JsNum → JsNum
  | .nan, _ => .nan
  | _, .nan => .nan
  | .posInf, .posInf => .nan
  | .negInf, .negInf => .nan
  | .posInf, _ => .posInf
  | _, .negInf => .posInf
  | .negInf, _ => .negInf
  | _, .posInf => .negInf
  | .finite a, .finite b => .finite (ratSub a b)

/-- Sign of a finite rational as used to orient infinite products and
quotients (zero counts as nonnegative; the negative zero is not modelled). -/
def ratNonneg (q : ℚ) : Bool := 0 ≤ q

/-- JavaScript `*` on numbers. -/
def jsMul : JsNum → JsNum → JsNum
  | .nan, _ => .nan
  | _, .nan => .nan
  | .posInf, .posInf => .posInf
  | .posInf, .negInf => .negInf
  | .negInf, .posInf => .negInf
  | .negInf, .negInf => .posInf
  | .posInf, .finite b => if b == 0 then .nan else if ratNonneg b then .posInf else .negInf
  | .finite a, .posInf => if a == 0 then .nan else if ratNonneg a then .posInf else .negInf
  | .negInf, .finite b => if b == 0 then .nan else if ratNonneg b then .negInf else .posInf
  | .finite a, .negInf => if a == 0 then .nan else if ratNonneg a then .negInf else .posInf
  | .finite a, .finite b => .finite (ratMul a b)

/-- JavaScript `/` on numbers (the calculator guards the divisor, so the
finite-zero-divisor rows are unreachable from `execute`). -/
def jsDiv : JsNum → JsNum → JsNum
  | .nan, _ => .nan
  | _, .nan => .nan
  | .posInf, .posInf => .nan
  | .posInf, .negInf => .nan
  | .negInf, .posInf => .nan
  | .negInf, .negInf => .nan
  | .posInf, .finite b => if ratNonneg b then .posInf else .negInf
  | .negInf, .finite b => if ratNonneg b then .negInf else .posInf
  | .finite _, .posInf => .finite 0
  | .finite _, .negInf => .finite 0
  | .finite a, .finite b =>
    if b == 0 then
      if a == 0 then .nan else if ratNonneg a then .posInf else .negInf
    else .finite (ratDiv a b)

/-- Decimal digits of the fractional part `r / den` by long division, to a
bounded depth. -/
def fracDigits : ℕ → ℕ → ℕ → List Char
  | _, _, 0 => []
  | 0, _, _ + 1 => []
  | r, den, fuel + 1 =>
    Char.ofNat ((r * 10) / den + '0'.toNat) :: fracDigits ((r * 10) % den) den fuel

/-- Rendering of a finite value in a template literal (digit-exact for values
whose decimal expansion terminates within 20 digits, which covers every value
reachable in the properties below; the shortest-round-trip formatting of
non-terminating doubles is not modelled). -/
def ratToString (q : ℚ) : String :=
  let n := q.num.natAbs
  let d := q.den
  let sign := if q < 0 then "-" else ""
  let whole := n / d
  let rem := n % d
  if rem == 0 then sign ++ toString whole
  else sign ++ toString whole ++ "." ++ String.mk (fracDigits rem d 20)

/-- String conversion of a number in a template literal. -/
def JsNum.render : JsNum → String
  | .nan => "NaN"
  | .posInf => "Infinity"
  | .negInf => "-Infinity"
  | .finite q => ratToString q

/-- JSON rendering of a number (`JSON.stringify` maps `NaN` and the
infinities to `null`). -/
def JsNum.json : JsNum → String
  | .finite q => ratToString q
  | _ => "null"

/-- Tool execution result, from `ToolResult` in `src/tools/types.ts`:
`{success: boolean; result?: any; error?: string}` (`result` instantiated at
`JsNum`, the only result type a tool of this repository produces). -/
structure ToolResult where
  success : Bool
  result : Option JsNum
  error : Option String
deriving DecidableEq, Repr

/-- The calculator operations, from `CalculatorOperation` in
`src/tools/calculator.ts`. -/
inductive CalculatorOperation where
  | add
  | subtract
  | multiply
  | divide
deriving DecidableEq, Repr

/-- The calculator argument record, from `CalculatorArgs` in
`src/tools/calculator.ts`. -/
structure CalculatorArgs where
  operation : CalculatorOperation
  a : JsNum
  b : JsNum
deriving DecidableEq, Repr

/-- A tool, from `Tool` in `src/tools/types.ts` (`args: any` instantiated at
`CalculatorArgs`; the possibly-asynchronous `execute` is modelled as a pure
function, the registry awaits it to completion before anything else runs). -/
structure Tool where
  name : String
  description : String
  execute : CalculatorArgs → ToolResult
  parseCall : String → Option CalculatorArgs

/-- A parsed tool call, from `ParsedToolCall` in `src/tools/types.ts`. -/
structure ParsedToolCall where
  toolName : String
  args : CalculatorArgs
deriving DecidableEq, Repr

/-- The operation-keyword check of `calculatorTool.parseCall`:
`['add', 'subtract', 'multiply', 'divide'].includes(opRaw.toLowerCase())`,
returning the matched operation. -/
def parseOperation (s : String) : Option CalculatorOperation :=
  if jsToLower s == "add" then some .add
  else if jsToLower s == "subtract" then some .subtract
  else if jsToLower s == "multiply" then some .multiply
  else if jsToLower s == "divide" then some .divide
  else none

/-- The calculator recognizer, from `calculatorTool.parseCall` in
`src/tools/calculator.ts`: trim; require the trimmed text to start
(after uppercasing) with `CALL_TOOL`; split on whitespace; require at least
four tokens (`tokens.length < 4` returns no match) and destructure the second,
third and fourth; require a known operation keyword; `Number` both operands
and reject if either is `NaN`. -/
def calcParseCall (message : String) : Option CalculatorArgs :=
  let trimmed := jsTrim message
  if jsStartsWith (jsToUpper trimmed) "CALL_TOOL" then
    match splitWs trimmed with
    | _ :: opRaw :: aRaw :: bRaw :: _ =>
      match parseOperation opRaw with
      | some operation =>
        let a := jsNumber aRaw
        let b := jsNumber bRaw
        if a.isNaN || b.isNaN then none
        else some ⟨operation, a, b⟩
      | none => none
    | _ => none
  else none

/-- The calculator executor, from `calculatorTool.execute` in
`src/tools/calculator.ts`.  The `switch` default arm and the surrounding
`try`/`catch` are unreachable in the model: the operation is one of the four
constructors and the arithmetic is total. -/
def calcExecute (args : CalculatorArgs) : ToolResult :=
  match args.operation with
  | .add => ⟨true, some (jsAdd args.a args.b), none⟩
  | .subtract => ⟨true, some (jsSub args.a args.b), none⟩
  | .multiply => ⟨true, some (jsMul args.a args.b), none⟩
  | .divide =>
    if args.b.eqZero then ⟨false, none, some "Division by zero is not allowed."⟩
    else ⟨true, some (jsDiv args.a args.b), none⟩

/-- The calculator tool, from `calculatorTool` in `src/tools/calculator.ts`. -/
def calculatorTool : Tool where
  name := "calculator"
  description := "Performs basic arithmetic operations: add, subtract, multiply, divide"
  execute := calcExecute
  parseCall := calcParseCall

/-- JavaScript `Map.set` on an association list in insertion order: an
existing key keeps its slot and gets the new value; a new key is appended. -/
def mapSet (m : List (String × Tool)) (k : String) (v : Tool) :
    List (String × Tool) :=
  if m.any (fun p => p.1 == k) then
    m.map (fun p => if p.1 == k then (k, v) else p)
  else m ++ [(k, v)]

/-- The tool registry, from `ToolRegistry` in `src/tools/registry.ts`: a
`Map<string, Tool>` in insertion order. -/
structure ToolRegistry where
  tools : List (String × Tool)

/-- `ToolRegistry.register`: `this.tools.set(tool.name, tool)`. -/
def ToolRegistry.register (reg : ToolRegistry) (tool : Tool) : ToolRegistry :=
  ⟨mapSet reg.tools tool.name tool⟩

/-- `ToolRegistry.get`: `this.tools.get(name)`. -/
def ToolRegistry.get (reg : ToolRegistry) (name : String) : Option Tool :=
  (reg.tools.find? (fun p => p.1 == name)).map (fun p => p.2)

/-- `ToolRegistry.getAll`: `Array.from(this.tools.values())`. -/
def ToolRegistry.getAll (reg : ToolRegistry) : List Tool :=
  reg.tools.map (fun p => p.2)

/-- `ToolRegistry.parseToolCall`: try each registered tool in iteration
order, returning the first match as `{toolName, args}`. -/
def ToolRegistry.parseToolCall (reg : ToolRegistry) (message : String) :
    Option ParsedToolCall :=
  reg.getAll.findSome? (fun t => (t.parseCall message).map (fun args => ⟨t.name, args⟩))

/-- `ToolRegistry.executeToolCall`: look the tool up by name; report a
missing tool as a failed outcome; otherwise delegate to its executor. -/
def ToolRegistry.executeToolCall (reg : ToolRegistry) (call : ParsedToolCall) :
    ToolResult :=
  match reg.get call.toolName with
  | none => ⟨false, none, some ("Tool \"" ++ call.toolName ++ "\" not found")⟩
  | some t => t.execute call.args

/-- `ToolRegistry.generateSystemPrompt`: one catalogue line per registered
tool followed by the fixed instructional block. -/
def ToolRegistry.generateSystemPrompt (reg : ToolRegistry) : String :=
  let toolDescriptions := String.intercalate "\n"
    (reg.getAll.map (fun t => "- " ++ t.name ++ ": " ++ t.description))
  "You have access to the following tools:\n" ++ toolDescriptions ++
    "\n\nWhen you need to use a tool, reply with exactly: CALL_TOOL <operation> <arg1> <arg2> (e.g. \x27CALL_TOOL add 2 2\x27).\nWait for a follow-up message that begins with \"You executed\" containing the result, then continue the conversation without repeating the tool call."

/-- The default registry: the constructor starts from an empty map and
registers the calculator. -/
def defaultRegistry : ToolRegistry := ToolRegistry.register ⟨[]⟩ calculatorTool

/-- The argument rendering `JSON.stringify(toolCall.args)` inside the
synthetic follow-up message: object-literal key order `operation`, `a`, `b`. -/
def stringifyArgs (args : CalculatorArgs) : String :=
  let opStr := match args.operation with
    | .add => "add"
    | .subtract => "subtract"
    | .multiply => "multiply"
    | .divide => "divide"
  "\x7b\"operation\":\"" ++ opStr ++ "\",\"a\":" ++ args.a.json ++
    ",\"b\":" ++ args.b.json ++ "\x7d"

/-- Template-literal rendering of `toolResult.result` (an absent field prints
as `undefined`). -/
def renderResultField (res : ToolResult) : String :=
  match res.result with
  | some v => v.render
  | none => "undefined"

/-- Template-literal rendering of `toolResult.error` (an absent field prints
as `undefined`). -/
def renderErrorField (res : ToolResult) : String :=
  match res.error with
  | some e => e
  | none => "undefined"

/-- The synthetic user-role follow-up built in `respondWithAssistant` after a
tool call: the success message or the failure message, as in `src/index.ts`. -/
def feedbackMessage (call : ParsedToolCall) (res : ToolResult) : String :=
  if res.success then
    "You executed " ++ call.toolName ++ "(" ++ stringifyArgs call.args ++
      "); result = " ++ renderResultField res ++ ". Use this to reply to the user."
  else
    "Tool execution failed: " ++ renderErrorField res ++
      ". Use this to reply to the user."

/-- One scripted outcome of an `ai.chat` call: a reply text, or a thrown
transport error. -/
def ModelStep := Except String String

/-- The inner loop of `respondWithAssistant` in `src/index.ts`, driven by the
script of transport outcomes.  Each iteration: call the transport (a thrown
error propagates, leaving the transcript as it stands); trim the reply and
append it as an assistant message; if no tool call is recognized the turn's
reply is final; otherwise execute the call, append the synthetic user-role
follow-up, and re-query.  Returns the transcript together with
`some error` when the transport failed (`none` on normal completion).
An exhausted script is treated as a transport failure. -/
def respondWithAssistant (reg : ToolRegistry) :
    List ModelStep → List ChatMessage → List ChatMessage × Option String
  | [], conversation => (conversation, some "transport unavailable")
  | Except.error e :: _, conversation => (conversation, some e)
  | Except.ok content :: script, conversation =>
    let assistantReply := jsTrim content
    let conv1 := conversation ++ [⟨Role.assistant, assistantReply⟩]
    match reg.parseToolCall assistantReply with
    | none => (conv1, none)
    | some toolCall =>
      let toolResult := reg.executeToolCall toolCall
      respondWithAssistant reg script
        (conv1 ++ [⟨Role.user, feedbackMessage toolCall toolResult⟩])

/-- One user turn of `startChat` in `src/index.ts`: append the user message,
run `respondWithAssistant`, and on a transport failure `conversation.pop()`
removes the last transcript entry before the error is surfaced. -/
def runTurn (reg : ToolRegistry) (script : List ModelStep)
    (conversation : List ChatMessage) (userInput : String) : List ChatMessage :=
  match respondWithAssistant reg script (conversation ++ [⟨Role.user, userInput⟩]) with
  | (conv, some _) => conv.dropLast
  | (conv, none) => conv

/-- The assistant/follow-up message pairs a turn appends for a list of
replies that are all recognized tool calls (the shape of the transcript grown
by the tool loop before its final reply or failure). -/
def toolLoopMsgs (reg : ToolRegistry) : List String → List ChatMessage
  | [] => []
  | r :: rest =>
    let reply := jsTrim r
    let follow := match reg.parseToolCall reply with
      | some call => feedbackMessage call (reg.executeToolCall call)
      | none => ""
    ⟨Role.assistant, reply⟩ :: ⟨Role.user, follow⟩ :: toolLoopMsgs reg rest

/-- Helper: the recognizer declines whenever the trimmed text does not start
(after uppercasing) with the call token. -/
theorem calcParseCall_eq_none_of_no_token (msg : String)
    (h : jsStartsWith (jsToUpper (jsTrim msg)) "CALL_TOOL" = false) :
    calcParseCall msg = none := by
  unfold calcParseCall
  simp [h]

/-- C4: if the very first transport call of a turn fails, the catch-and-pop
leaves the transcript exactly as it was before the turn began (the appended
user message is the only message removed). -/
theorem first_call_failure_restores_transcript (reg : ToolRegistry) (e : String)
    (rest : List ModelStep) (conversation : List ChatMessage) (userInput : String) :
    runTurn reg (Except.error e :: rest) conversation userInput = conversation := by
  simp [runTurn, respondWithAssistant]

/-- C7: the reply `CALL_TOOL add 2 2` is parsed by the default registry as a
call to the `calculator` tool with arguments `add`, `2`, `2`, and executing
that parsed call succeeds with value `4`. -/
theorem add_two_two_end_to_end :
    defaultRegistry.parseToolCall "CALL_TOOL add 2 2" =
      some ⟨"calculator", ⟨.add, .finite 2, .finite 2⟩⟩ ∧
    defaultRegistry.executeToolCall ⟨"calculator", ⟨.add, .finite 2, .finite 2⟩⟩ =
      ⟨true, some (.finite 4), none⟩ := by
  constructor <;> decide

/-- C2 (counterexample): a reply that starts with the call token but has
five whitespace-delimited tokens is still recognized — the recognizer only
rejects token counts below four, so extra tokens do not prevent a match. -/
theorem parseCall_accepts_extra_tokens :
    (splitWs (jsTrim "CALL_TOOL add 2 2 junk")).length = 5 ∧
    calcParseCall "CALL_TOOL add 2 2 junk" = some ⟨.add, .finite 2, .finite 2⟩ := by
  constructor <;> decide

/-- C2 (amended): the recognizer is strict about missing tokens — any reply
whose trimmed whitespace-split form has fewer than four tokens is rejected —
while tokens beyond the fourth are ignored: a reply with a recognized token
prefix, a valid operation keyword and two parseable operands matches no
matter what follows the fourth token. -/
theorem parseCall_token_count (msg : String) :
    ((splitWs (jsTrim msg)).length < 4 → calcParseCall msg = none) ∧
    (∀ t0 op a b rest o, splitWs (jsTrim msg) = t0 :: op :: a :: b :: rest →
      jsStartsWith (jsToUpper (jsTrim msg)) "CALL_TOOL" = true →
      parseOperation op = some o →
      (jsNumber a).isNaN = false → (jsNumber b).isNaN = false →
      calcParseCall msg = some ⟨o, jsNumber a, jsNumber b⟩) := by
  constructor
  · intro hlen
    unfold calcParseCall
    cases hstart : jsStartsWith (jsToUpper (jsTrim msg)) "CALL_TOOL" with
    | false => simp [hstart]
    | true =>
      simp only [hstart, if_true]
      match hsp : splitWs (jsTrim msg) with
      | [] => simp
      | [_] => simp
      | [_, _] => simp
      | [_, _, _] => simp
      | _ :: _ :: _ :: _ :: _ =>
        rw [hsp] at hlen
        simp only [List.length_cons] at hlen
        omega
  · intro t0 op a b rest o hsp hstart hop ha hb
    unfold calcParseCall
    simp only [hstart, if_true, hsp, hop, ha, hb]
    simp

/-- Witness for C2 (amended): a three-token reply is rejected; a five-token
reply with valid prefix, keyword and operands is accepted. -/
theorem parseCall_token_count_witness :
    calcParseCall "CALL_TOOL add 2" = none ∧
    calcParseCall "CALL_TOOL add 2 2 junk" = some ⟨.add, jsNumber "2", jsNumber "2"⟩ :=
  ⟨(parseCall_token_count "CALL_TOOL add 2").1 (by decide),
   (parseCall_token_count "CALL_TOOL add 2 2 junk").2 "CALL_TOOL" "add" "2" "2" ["junk"]
     .add (by decide) (by decide) (by decide) (by decide) (by decide)⟩

/-- C1 (counterexample): a transport failure on the re-query after one
tool-call iteration.  The first reply is the recognized call
`CALL_TOOL add 2 2`, so the transcript at failure time is the user message,
the assistant call, and the synthetic result message; `conversation.pop()`
then removes the synthetic result message — the initiating user message
`hi` is still present and the tool-call/result pair has lost its result
half, contradicting the claimed rollback of exactly the user message. -/
theorem rollback_pops_synthetic_result :
    runTurn defaultRegistry
        [Except.ok "CALL_TOOL add 2 2", Except.error "network down"] [] "hi" =
      [⟨Role.user, "hi"⟩, ⟨Role.assistant, "CALL_TOOL add 2 2"⟩] := by
  decide

/-- Helper: running the loop on a script of recognized tool-call replies
followed by a transport error grows the transcript by one
assistant-call/synthetic-result pair per reply and then propagates the
error with the transcript as it stands. -/
theorem respond_tool_calls_then_error (reg : ToolRegistry) (e : String) :
    ∀ (calls : List String) (conversation : List ChatMessage),
      (∀ r ∈ calls, (reg.parseToolCall (jsTrim r)).isSome) →
      respondWithAssistant reg (calls.map Except.ok ++ [Except.error e]) conversation =
        (conversation ++ toolLoopMsgs reg calls, some e) := by
  intro calls
  induction calls with
  | nil =>
    intro conversation _
    simp [respondWithAssistant, toolLoopMsgs]
  | cons r rest ih =>
    intro conversation h
    have hr : (reg.parseToolCall (jsTrim r)).isSome := h r (List.mem_cons_self r rest)
    obtain ⟨call, hcall⟩ := Option.isSome_iff_exists.mp hr
    have hrest : ∀ x ∈ rest, (reg.parseToolCall (jsTrim x)).isSome :=
      fun x hx => h x (List.mem_cons_of_mem r hx)
    simp only [List.map_cons, List.cons_append, respondWithAssistant, hcall,
      toolLoopMsgs, List.append_eq]
    rw [ih _ hrest]
    simp [List.append_assoc]

/-- C1 (amended): on every transport failure during a turn — after any
number of completed tool-call iterations — the rollback removes exactly one
message: the most recently appended one.  When the first transport call
fails that is the initiating user message; when the failure comes on a
re-query after one or more tool-call/result pairs, the popped message is the
latest synthetic result message, so the initiating user message and all
earlier pairs stay while the final pair is left without its result half. -/
theorem rollback_removes_last_message (reg : ToolRegistry) (e : String)
    (calls : List String) (conversation : List ChatMessage) (userInput : String)
    (h : ∀ r ∈ calls, (reg.parseToolCall (jsTrim r)).isSome) :
    runTurn reg (calls.map Except.ok ++ [Except.error e]) conversation userInput =
      (conversation ++ [ChatMessage.mk Role.user userInput] ++
        toolLoopMsgs reg calls).dropLast := by
  unfold runTurn
  rw [respond_tool_calls_then_error reg e calls _ h]

/-- Witness for C1 (amended): one completed tool-call iteration, then a
transport failure; the popped message is the synthetic result, the user
message survives. -/
theorem rollback_removes_last_message_witness :
    runTurn defaultRegistry
        [Except.ok "CALL_TOOL add 2 2", Except.error "boom"] [] "hello" =
      ([] ++ [ChatMessage.mk Role.user "hello"] ++
        toolLoopMsgs defaultRegistry ["CALL_TOOL add 2 2"]).dropLast :=
  rollback_removes_last_message defaultRegistry "boom" ["CALL_TOOL add 2 2"] [] "hello"
    (by decide)

/-- C3: a turn whose replies are two recognized tool calls and then a
non-call reply leaves the transcript containing, in order, the user
message, assistant call one, exactly one synthetic user-role result
message, assistant call two, exactly one synthetic result message, and the
final assistant reply — nothing duplicated, lost or reordered. -/
theorem two_call_turn_transcript (reg : ToolRegistry)
    (conversation : List ChatMessage) (userInput r1 r2 r3 : String)
    (c1 c2 : ParsedToolCall)
    (h1 : reg.parseToolCall (jsTrim r1) = some c1)
    (h2 : reg.parseToolCall (jsTrim r2) = some c2)
    (h3 : reg.parseToolCall (jsTrim r3) = none) :
    runTurn reg [Except.ok r1, Except.ok r2, Except.ok r3] conversation userInput =
      conversation ++
        [⟨Role.user, userInput⟩,
         ⟨Role.assistant, jsTrim r1⟩,
         ⟨Role.user, feedbackMessage c1 (reg.executeToolCall c1)⟩,
         ⟨Role.assistant, jsTrim r2⟩,
         ⟨Role.user, feedbackMessage c2 (reg.executeToolCall c2)⟩,
         ⟨Role.assistant, jsTrim r3⟩] := by
  unfold runTurn
  simp only [respondWithAssistant, h1, h2, h3]
  simp [List.append_assoc]

/-- Witness for C3: calls `CALL_TOOL add 2 2` and `CALL_TOOL multiply 3 4`,
then the final reply `All done.`, on the default registry. -/
theorem two_call_turn_transcript_witness :
    runTurn defaultRegistry
        [Except.ok "CALL_TOOL add 2 2", Except.ok "CALL_TOOL multiply 3 4",
         Except.ok "All done."] [] "compute" =
      [] ++
        [⟨Role.user, "compute"⟩,
         ⟨Role.assistant, jsTrim "CALL_TOOL add 2 2"⟩,
         ⟨Role.user, feedbackMessage ⟨"calculator", ⟨.add, .finite 2, .finite 2⟩⟩
            (defaultRegistry.executeToolCall ⟨"calculator", ⟨.add, .finite 2, .finite 2⟩⟩)⟩,
         ⟨Role.assistant, jsTrim "CALL_TOOL multiply 3 4"⟩,
         ⟨Role.user, feedbackMessage ⟨"calculator", ⟨.multiply, .finite 3, .finite 4⟩⟩
            (defaultRegistry.executeToolCall ⟨"calculator", ⟨.multiply, .finite 3, .finite 4⟩⟩)⟩,
         ⟨Role.assistant, jsTrim "All done."⟩] :=
  two_call_turn_transcript defaultRegistry [] "compute"
    "CALL_TOOL add 2 2" "CALL_TOOL multiply 3 4" "All done."
    ⟨"calculator", ⟨.add, .finite 2, .finite 2⟩⟩
    ⟨"calculator", ⟨.multiply, .finite 3, .finite 4⟩⟩
    (by decide) (by decide) (by decide)

/-- Helper: the division guard `b === 0` holds exactly for the finite zero. -/
theorem eqZero_iff (b : JsNum) : b.eqZero = true ↔ b = .finite 0 := by
  cases b <;> simp [JsNum.eqZero]

/-- C5: on every registry whose registered tools are this repository's (the
calculator is the only tool the repository defines) and that contains the
calculator, `parseToolCall` declines every text whose trimmed form does not
start (case-insensitively) with the call token; and the calculator
recognizer declines whenever either operand fails numeric parsing, even
when the token shape otherwise matches. -/
theorem parseToolCall_requires_token_and_numeric_operands (reg : ToolRegistry)
    (hcal : ∀ p ∈ reg.tools, p.2 = calculatorTool)
    (_hmem : calculatorTool ∈ reg.getAll) :
    (∀ msg, jsStartsWith (jsToUpper (jsTrim msg)) "CALL_TOOL" = false →
      reg.parseToolCall msg = none) ∧
    (∀ msg t0 op a b rest, splitWs (jsTrim msg) = t0 :: op :: a :: b :: rest →
      ((jsNumber a).isNaN || (jsNumber b).isNaN) = true →
      calculatorTool.parseCall msg = none) := by
  constructor
  · intro msg hstart
    unfold ToolRegistry.parseToolCall
    rw [List.findSome?_eq_none_iff]
    intro t ht
    obtain ⟨p, hp, hpt⟩ := List.mem_map.mp ht
    rw [← hpt, hcal p hp]
    have : calculatorTool.parseCall msg = none := by
      show calcParseCall msg = none
      exact calcParseCall_eq_none_of_no_token msg hstart
    rw [this]
    rfl
  · intro msg t0 op a b rest hsp hnan
    show calcParseCall msg = none
    unfold calcParseCall
    cases hstart : jsStartsWith (jsToUpper (jsTrim msg)) "CALL_TOOL" with
    | false => simp [hstart]
    | true =>
      simp only [hstart, if_true, hsp]
      cases hop : parseOperation op with
      | none => simp
      | some o => simp [hnan]

/-- Witness for C5: on the default registry, plain text is not a call, and
`CALL_TOOL multiply x 3` is rejected because `x` parses to `NaN`. -/
theorem parseToolCall_requires_token_witness :
    defaultRegistry.parseToolCall "What is 2 plus 2?" = none ∧
    calculatorTool.parseCall "CALL_TOOL multiply x 3" = none := by
  have hcal : ∀ p ∈ defaultRegistry.tools, p.2 = calculatorTool := by
    intro p hp
    have : p = ("calculator", calculatorTool) := List.mem_singleton.mp hp
    rw [this]
  have hmem : calculatorTool ∈ defaultRegistry.getAll :=
    List.mem_singleton.mpr rfl
  exact ⟨(parseToolCall_requires_token_and_numeric_operands defaultRegistry hcal hmem).1
      "What is 2 plus 2?" (by decide),
    (parseToolCall_requires_token_and_numeric_operands defaultRegistry hcal hmem).2
      "CALL_TOOL multiply x 3" "CALL_TOOL" "multiply" "x" "3" [] (by decide) (by decide)⟩

/-- C6: the calculator's executor fails with the division-by-zero error
exactly when the operation is `divide` and the second operand is the number
zero; for every other recognized argument combination it succeeds with a
value. -/
theorem execute_divide_zero_iff (args : CalculatorArgs) :
    (calculatorTool.execute args =
        ⟨false, none, some "Division by zero is not allowed."⟩ ↔
      args.operation = .divide ∧ args.b = .finite 0) ∧
    (¬(args.operation = .divide ∧ args.b = .finite 0) →
      ∃ v, calculatorTool.execute args = ⟨true, some v, none⟩) := by
  obtain ⟨op, a, b⟩ := args
  show (calcExecute ⟨op, a, b⟩ = _ ↔ _) ∧ _
  cases op with
  | add => exact ⟨by simp [calcExecute], fun _ => ⟨_, rfl⟩⟩
  | subtract => exact ⟨by simp [calcExecute], fun _ => ⟨_, rfl⟩⟩
  | multiply => exact ⟨by simp [calcExecute], fun _ => ⟨_, rfl⟩⟩
  | divide =>
    cases hz : JsNum.eqZero b with
    | true =>
      have hb : b = .finite 0 := (eqZero_iff b).mp hz
      constructor
      · simp [calcExecute, hz, hb, JsNum.eqZero]
      · intro hn
        exact absurd ⟨rfl, hb⟩ hn
    | false =>
      have hb : ¬ b = .finite 0 := by
        intro h
        rw [(eqZero_iff b).mpr h] at hz
        simp at hz
      constructor
      · simp [calcExecute, hz, hb]
      · intro _
        exact ⟨jsDiv a b, by simp [calculatorTool, calcExecute, hz]⟩

/-- Witness for C6: `divide 5 0` fails with the division-by-zero error;
`add 2 2` succeeds with a value. -/
theorem execute_divide_zero_iff_witness :
    calculatorTool.execute ⟨.divide, .finite 5, .finite 0⟩ =
      ⟨false, none, some "Division by zero is not allowed."⟩ ∧
    ∃ v, calculatorTool.execute ⟨.add, .finite 2, .finite 2⟩ = ⟨true, some v, none⟩ :=
  ⟨(execute_divide_zero_iff ⟨.divide, .finite 5, .finite 0⟩).1.mpr ⟨rfl, rfl⟩,
   (execute_divide_zero_iff ⟨.add, .finite 2, .finite 2⟩).2 (by simp)⟩

/-- Helper: replacing every entry keyed `k` leaves the entry found under `k`
equal to the new pair, provided some entry with key `k` exists. -/
theorem find?_map_replace (k : String) (v : Tool) :
    ∀ m : List (String × Tool), m.any (fun p => p.1 == k) = true →
      (m.map (fun p => if p.1 == k then (k, v) else p)).find? (fun p => p.1 == k) =
        some (k, v) := by
  intro m
  induction m with
  | nil => intro h; simp at h
  | cons p m' ih =>
    intro h
    by_cases hp : (p.1 == k) = true
    · simp only [List.map_cons, if_pos hp]
      simp [List.find?_cons]
    · have hp' : (p.1 == k) = false := by simpa using hp
      have h' : m'.any (fun q => q.1 == k) = true := by
        simp only [List.any_cons, hp', Bool.false_or] at h
        exact h
      simp only [List.map_cons, if_neg hp]
      rw [List.find?_cons, hp']
      exact ih h'

/-- Helper: after `mapSet m k v`, looking up key `k` finds exactly `(k, v)` —
the JavaScript `Map.set`/`Map.get` round trip. -/
theorem find?_mapSet_self (m : List (String × Tool)) (k : String) (v : Tool) :
    (mapSet m k v).find? (fun p => p.1 == k) = some (k, v) := by
  unfold mapSet
  by_cases h : m.any (fun p => p.1 == k) = true
  · rw [if_pos h]
    exact find?_map_replace k v m h
  · rw [if_neg h]
    rw [List.find?_append]
    have hnone : m.find? (fun p => p.1 == k) = none := by
      rw [List.find?_eq_none]
      intro p hp hcontra
      exact h (List.any_eq_true.mpr ⟨p, hp, hcontra⟩)
    rw [hnone]
    simp

/-- C8: registering a second tool under an already-registered name replaces
the first for dispatch — executing a parsed call that names the shared name
after both registrations delegates to the later tool's executor. -/
theorem reregister_last_wins (reg : ToolRegistry) (t1 t2 : Tool)
    (call : ParsedToolCall) (_hname : t2.name = t1.name)
    (hcall : call.toolName = t2.name) :
    ((reg.register t1).register t2).executeToolCall call = t2.execute call.args := by
  simp only [ToolRegistry.executeToolCall, ToolRegistry.get, ToolRegistry.register, hcall]
  rw [find?_mapSet_self]
  rfl

/-- Sample tool used by the dispatch and ordering witnesses. -/
def sampleToolOld : Tool where
  name := "demo"
  description := "first demo tool"
  execute := fun _ => ⟨true, some (.finite 1), none⟩
  parseCall := fun _ => none

/-- A second tool sharing `sampleToolOld`'s name, with a distinguishable
executor. -/
def sampleToolNew : Tool where
  name := "demo"
  description := "second demo tool"
  execute := fun _ => ⟨true, some (.finite 2), none⟩
  parseCall := fun _ => none

/-- Witness for C8: after registering `sampleToolOld` then `sampleToolNew`
(same name `demo`), dispatch on `demo` returns the later tool's outcome,
which differs from the earlier tool's. -/
theorem reregister_last_wins_witness :
    ((defaultRegistry.register sampleToolOld).register sampleToolNew).executeToolCall
        ⟨"demo", ⟨.add, .finite 0, .finite 0⟩⟩ =
      sampleToolNew.execute ⟨.add, .finite 0, .finite 0⟩ ∧
    sampleToolNew.execute ⟨.add, .finite 0, .finite 0⟩ ≠
      sampleToolOld.execute ⟨.add, .finite 0, .finite 0⟩ :=
  ⟨reregister_last_wins defaultRegistry sampleToolOld sampleToolNew
      ⟨"demo", ⟨.add, .finite 0, .finite 0⟩⟩ rfl rfl,
   by decide⟩

/-- C9: executing a parsed call whose tool name is not registered returns
the tagged not-found outcome rather than an interrupting failure; a
registered name delegates to that tool's executor. -/
theorem executeToolCall_unknown_tool (reg : ToolRegistry) (call : ParsedToolCall) :
    (call.toolName ∉ reg.tools.map Prod.fst →
      reg.executeToolCall call =
        ⟨false, none, some ("Tool \"" ++ call.toolName ++ "\" not found")⟩) ∧
    (∀ t, reg.get call.toolName = some t →
      reg.executeToolCall call = t.execute call.args) := by
  constructor
  · intro hmem2
    have hget : reg.get call.toolName = none := by
      unfold ToolRegistry.get
      rw [List.find?_eq_none.mpr]
      · rfl
      · intro p hp hcontra
        exact hmem2 (List.mem_map.mpr ⟨p, hp, by simpa using hcontra⟩)
    unfold ToolRegistry.executeToolCall
    rw [hget]
  · intro t hget
    unfold ToolRegistry.executeToolCall
    rw [hget]

/-- Witness for C9: a call naming the unregistered `ghost` yields the
not-found outcome; a call naming `calculator` delegates to the calculator's
executor. -/
theorem executeToolCall_unknown_tool_witness :
    defaultRegistry.executeToolCall ⟨"ghost", ⟨.add, .finite 2, .finite 2⟩⟩ =
      ⟨false, none, some "Tool \"ghost\" not found"⟩ ∧
    defaultRegistry.executeToolCall ⟨"calculator", ⟨.add, .finite 2, .finite 2⟩⟩ =
      calculatorTool.execute ⟨.add, .finite 2, .finite 2⟩ :=
  ⟨(executeToolCall_unknown_tool defaultRegistry ⟨"ghost", ⟨.add, .finite 2, .finite 2⟩⟩).1
      (by decide),
   (executeToolCall_unknown_tool defaultRegistry
      ⟨"calculator", ⟨.add, .finite 2, .finite 2⟩⟩).2 calculatorTool rfl⟩

/-- Helper: the existence test used by `mapSet` agrees with key membership. -/
theorem any_beq_eq_true_iff_mem (m : List (String × Tool)) (k : String) :
    m.any (fun p => p.1 == k) = true ↔ k ∈ m.map Prod.fst := by
  rw [List.any_eq_true]
  constructor
  · rintro ⟨p, hp, hpk⟩
    exact List.mem_map.mpr ⟨p, hp, (beq_iff_eq.mp hpk)⟩
  · intro hk
    obtain ⟨p, hp, hpk⟩ := List.mem_map.mp hk
    exact ⟨p, hp, beq_iff_eq.mpr hpk⟩

/-- C10: re-registering a tool under an already-registered name keeps that
name's original slot in the registry's iteration order, so the name order
seen by the recognizer loop of `parseToolCall` and by the catalogue lines of
`generateSystemPrompt` (both of which walk `getAll` in iteration order) is
unchanged by an overwrite; only a genuinely new name is appended at the
end.  The hypothesis is the registry invariant that every entry is keyed by
its tool's name, which `register` maintains. -/
theorem reregister_keeps_order (reg : ToolRegistry) (t : Tool)
    (hw : ∀ p ∈ reg.tools, p.1 = p.2.name) :
    (t.name ∈ reg.tools.map Prod.fst →
      (reg.register t).tools.map Prod.fst = reg.tools.map Prod.fst ∧
      (reg.register t).getAll.map Tool.name = reg.getAll.map Tool.name) ∧
    (t.name ∉ reg.tools.map Prod.fst →
      (reg.register t).tools = reg.tools ++ [(t.name, t)]) := by
  constructor
  · intro hk
    have hany : reg.tools.any (fun p => p.1 == t.name) = true :=
      (any_beq_eq_true_iff_mem reg.tools t.name).mpr hk
    have htools : (reg.register t).tools =
        reg.tools.map (fun p => if p.1 == t.name then (t.name, t) else p) := by
      show mapSet reg.tools t.name t = _
      unfold mapSet
      rw [if_pos hany]
    constructor
    · rw [htools, List.map_map]
      apply List.map_congr_left
      intro p hp
      by_cases hpk : (p.1 == t.name) = true
      · simp only [Function.comp_apply, if_pos hpk]
        exact (beq_iff_eq.mp hpk).symm
      · simp only [Function.comp_apply, if_neg hpk]
    · show ((reg.register t).tools.map Prod.snd).map Tool.name =
        (reg.tools.map Prod.snd).map Tool.name
      rw [htools]
      simp only [List.map_map]
      apply List.map_congr_left
      intro p hp
      by_cases hpk : (p.1 == t.name) = true
      · simp only [Function.comp_apply, if_pos hpk]
        rw [← hw p hp, beq_iff_eq.mp hpk]
      · simp only [Function.comp_apply, if_neg hpk]
  · intro hk
    have hany : reg.tools.any (fun p => p.1 == t.name) = false := by
      cases hx : reg.tools.any (fun p => p.1 == t.name) with
      | false => rfl
      | true => exact absurd ((any_beq_eq_true_iff_mem reg.tools t.name).mp hx) hk
    show mapSet reg.tools t.name t = _
    unfold mapSet
    rw [if_neg (by rw [hany]; exact Bool.false_ne_true)]

/-- A replacement calculator with the same name, used by the ordering
witness. -/
def sampleCalcOverride : Tool where
  name := "calculator"
  description := "replacement calculator"
  execute := fun _ => ⟨true, some (.finite 0), none⟩
  parseCall := fun _ => none

/-- Witness for C10: overwriting `calculator` on the default registry keeps
the key order; registering the fresh name `demo` appends at the end. -/
theorem reregister_keeps_order_witness :
    (defaultRegistry.register sampleCalcOverride).tools.map Prod.fst =
      defaultRegistry.tools.map Prod.fst ∧
    (defaultRegistry.register sampleToolOld).tools =
      defaultRegistry.tools ++ [("demo", sampleToolOld)] := by
  have hw : ∀ p ∈ defaultRegistry.tools, p.1 = p.2.name := by
    intro p hp
    have : p = ("calculator", calculatorTool) := List.mem_singleton.mp hp
    rw [this]
    rfl
  exact ⟨((reregister_keeps_order defaultRegistry sampleCalcOverride hw).1
      (by decide)).1,
    (reregister_keeps_order defaultRegistry sampleToolOld hw).2 (by decide)⟩
